import Mathlib

/-
Shallow embedding of `src/embedding_based/metrics.py`.

The source computes embedding-based similarity metrics (Average and
Extrema aggregation, plus an unimplemented Greedy Matching stub) over
tokenized sentence corpora, using numpy over floating-point vectors.
Floating-point arithmetic is modelled by exact real arithmetic (ℝ);
`np.linalg.norm` is the Euclidean norm (Real.sqrt of the sum of
squares).  Python's `assert` and runtime type errors are modelled with
an `Except` result type.  Division follows Lean's total-division
convention (x / 0 = 0) where numpy would produce NaN with a runtime
warning; every place where this matters is noted on the definition.
-/

namespace EmbeddingBased

/-- Tokens are opaque strings (the corpora are lists of lists of string
tokens). -/
abbrev Token := String

/-- A 1-D real vector, modelling a 1-D numpy ndarray of floats. -/
abbrev Vec := List ℝ

/-- The module constant `_EPSILON = 0.00000000001` (= 1e-11). -/
noncomputable def EPSILON : ℝ := 1 / 10 ^ 11

/-- `np.dot` of two 1-D vectors: the sum of elementwise products. -/
noncomputable def dotR (a b : Vec) : ℝ := (List.zipWith (fun x y => x * y) a b).sum

/-- `np.linalg.norm` of a 1-D vector: the Euclidean norm. -/
noncomputable def normR (v : Vec) : ℝ := Real.sqrt (dotR v v)

/-- Elementwise vector addition (numpy `+` on same-shape 1-D arrays). -/
noncomputable def vecAdd (a b : Vec) : Vec := List.zipWith (fun x y => x + y) a b

/-- `np.zeros((D,))`. -/
noncomputable def zeroVec (D : ℕ) : Vec := List.replicate D 0

/-- The embedding lookup collaborator (a gensim `KeyedVectors`): a
vector size, a partial map from tokens to vectors (`none` = OOV), and
the KeyedVectors guarantee that every stored vector has length
`vectorSize`. -/
structure Embeddings where
  vectorSize : ℕ
  lookup : Token → Option Vec
  wf : ∀ t v, lookup t = some v → v.length = vectorSize

/-- `np.mean(scores)` (division by a zero length is 0 here, NaN in numpy). -/
noncomputable def meanR (scores : List ℝ) : ℝ := scores.sum / scores.length

/-- `np.std(scores)`: population standard deviation, the square root of
the mean squared deviation from the mean. -/
noncomputable def stdR (scores : List ℝ) : ℝ :=
  Real.sqrt ((scores.map (fun x => (x - meanR scores) ^ 2)).sum / scores.length)

/-- `_compute_statistics(scores)`: the 3-tuple
`(np.mean(scores), 1.96 * np.std(scores) / len(scores), np.std(scores))`. -/
noncomputable def computeStatistics (scores : List ℝ) : ℝ × ℝ × ℝ :=
  (meanR scores, 1.96 * stdR scores / scores.length, stdR scores)

/-- `_cosine_similarity(a, b) = np.dot(a, b) / np.linalg.norm(a) / np.linalg.norm(b)`. -/
noncomputable def cosineSimilarity (a b : Vec) : ℝ := dotR a b / normR a / normR b

/-- `_embedding_sum(sentence, embeddings)`: sum the embeddings of the
in-vocabulary words; if the sum's norm is below `_EPSILON`, return
`np.zeros((vector_size,))` instead. -/
noncomputable def embeddingSum (sentence : List Token) (emb : Embeddings) : Vec :=
  if normR ((sentence.filterMap emb.lookup).foldl vecAdd (zeroVec emb.vectorSize)) < EPSILON then
    zeroVec emb.vectorSize
  else
    (sentence.filterMap emb.lookup).foldl vecAdd (zeroVec emb.vectorSize)

/-- `_get_average(sentence, embeddings)`: the embedding sum divided by
its own norm. -/
noncomputable def getAverage (sentence : List Token) (emb : Embeddings) : Vec :=
  (embeddingSum sentence emb).map (fun x => x / normR (embeddingSum sentence emb))

/-- `average_sentence_level`: cosine similarity of the two normalized
embedding sums. -/
noncomputable def average_sentence_level (hypothesis_sentence reference_sentence : List Token)
    (emb : Embeddings) : ℝ :=
  cosineSimilarity (getAverage hypothesis_sentence emb) (getAverage reference_sentence emb)

/-- Python exceptions raised by the corpus-level functions: the `assert`
at the top of `average_corpus_level`, and the `TypeError` raised inside
`extrema_corpus_level` (see `extPairAction`). -/
inductive PyErr
  | assertionError
  | typeError
deriving DecidableEq

/-- The outcome of one iteration of the `average_corpus_level` loop:
skip the pair, append the score 0, or append the cosine score of the
two embedding sums `X` and `Y`. -/
inductive AvgAction
  | skip
  | zero
  | score (X Y : Vec)

/-- The guard chain of one `average_corpus_level` iteration
(metrics.py lines 89-103).  NOTE the variable binding in the source:
`X = _embedding_sum(hypothesis, ...)` and `Y = _embedding_sum(reference, ...)`,
so the `continue` (skip) fires on the HYPOTHESIS sum and the
`scores.append(0)` fires on the REFERENCE sum, although the comments in
the source say the opposite ("ground truth ... skip",
"response ... zero"). -/
noncomputable def avgPairAction (hypothesis reference : List Token) (emb : Embeddings) :
    AvgAction :=
  if normR (embeddingSum hypothesis emb) < EPSILON then AvgAction.skip
  else if normR (embeddingSum reference emb) < EPSILON then AvgAction.zero
  else AvgAction.score (embeddingSum hypothesis emb) (embeddingSum reference emb)

/-- The score appended in the final branch: both sums are normalized in
place (`X /= np.linalg.norm(X)`, `Y /= np.linalg.norm(Y)`) and then
passed to `_cosine_similarity`. -/
noncomputable def avgScoreValue (X Y : Vec) : ℝ :=
  cosineSimilarity (X.map (fun x => x / normR X)) (Y.map (fun y => y / normR Y))

/-- The `for hypothesis, reference in zip(...)` loop of
`average_corpus_level`, accumulating the `scores` list. -/
noncomputable def averageLoop (emb : Embeddings) :
    List (List Token × List Token) → List ℝ → List ℝ
  | [], scores => scores
  | p :: rest, scores =>
    match avgPairAction p.1 p.2 emb with
    | AvgAction.skip => averageLoop emb rest scores
    | AvgAction.zero => averageLoop emb rest (scores ++ [0])
    | AvgAction.score X Y => averageLoop emb rest (scores ++ [avgScoreValue X Y])

/-- The score list built by `average_corpus_level` (after the assert). -/
noncomputable def averageScores (hypothesis_corpus reference_corpus : List (List Token))
    (emb : Embeddings) : List ℝ :=
  averageLoop emb (hypothesis_corpus.zip reference_corpus) []

/-- `average_corpus_level`: asserts the two corpora have equal length
(an `AssertionError` otherwise), then returns
`_compute_statistics(scores)`. -/
noncomputable def average_corpus_level (hypothesis_corpus reference_corpus : List (List Token))
    (emb : Embeddings) : Except PyErr (ℝ × ℝ × ℝ) :=
  if hypothesis_corpus.length = reference_corpus.length then
    Except.ok (computeStatistics (averageScores hypothesis_corpus reference_corpus emb))
  else
    Except.error PyErr.assertionError

/-- `np.max(vectors, axis=0)` / `np.min(vectors, axis=0)`: reduce a
list of same-length rows elementwise with `f`.  numpy raises on an
empty list; the `[]` value for `[]` here is junk that is never relied
upon. -/
def colReduce {α : Type} (f : α → α → α) : List (List α) → List α
  | [] => []
  | v :: vs => vs.foldl (List.zipWith f) v

/-- `_get_extrema(vectors)`: per dimension, take the min value if its
absolute value exceeds the max value, otherwise the max value
(`min_v if np.abs(min_v) > max_v else max_v`).  The source is generic
numpy code, embedded here over any linear ordered field; the metric
functions instantiate it at ℝ. -/
def getExtrema {α : Type} [LinearOrderedField α] (vectors : List (List α)) : List α :=
  List.zipWith (fun min_v max_v => if max_v < |min_v| then min_v else max_v)
    (colReduce (fun x y => min x y) vectors) (colReduce (fun x y => max x y) vectors)

/-- `_map_to_embeddings(words, embeddings)`: the embeddings of the
in-vocabulary words, OOV words dropped. -/
noncomputable def mapToEmbeddings (words : List Token) (emb : Embeddings) : List Vec :=
  words.filterMap emb.lookup

/-- `extrema_sentence_level`: cosine similarity of the extrema vectors
of the two mapped embedding lists. -/
noncomputable def extrema_sentence_level (hypothesis_sentence reference_sentence : List Token)
    (emb : Embeddings) : ℝ :=
  cosineSimilarity (getExtrema (mapToEmbeddings hypothesis_sentence emb))
    (getExtrema (mapToEmbeddings reference_sentence emb))

/-- The outcome of one iteration of the `extrema_corpus_level` loop. -/
inductive ExtAction
  | skip
  | zero
  | raiseType

/-- The guard chain of one `extrema_corpus_level` iteration
(metrics.py lines 161-173).  `X = _map_to_embeddings(hypothesis, ...)`
and `Y = _map_to_embeddings(reference, ...)` are LISTS of vectors;
`np.linalg.norm` flattens them, i.e. takes `normR` of the
concatenation.  When both guards pass, the source evaluates
`_cosine_similarity(_get_extrema(hypothesis), _get_extrema(reference))`:
it applies `_get_extrema` to the raw token STRING lists (the computed
`X` and `Y` go unused), and `np.abs` on a numpy string scalar raises
`TypeError`, so the value branch always raises before computing any
score. -/
noncomputable def extPairAction (hypothesis reference : List Token) (emb : Embeddings) :
    ExtAction :=
  if normR (mapToEmbeddings hypothesis emb).flatten < EPSILON then ExtAction.skip
  else if normR (mapToEmbeddings reference emb).flatten < EPSILON then ExtAction.zero
  else ExtAction.raiseType

/-- The `for hypothesis, reference in zip(...)` loop of
`extrema_corpus_level`; a raised `TypeError` propagates out of the
loop. -/
noncomputable def extremaLoop (emb : Embeddings) :
    List (List Token × List Token) → List ℝ → Except PyErr (List ℝ)
  | [], scores => Except.ok scores
  | p :: rest, scores =>
    match extPairAction p.1 p.2 emb with
    | ExtAction.skip => extremaLoop emb rest scores
    | ExtAction.zero => extremaLoop emb rest (scores ++ [0])
    | ExtAction.raiseType => Except.error PyErr.typeError

/-- The score list built by `extrema_corpus_level` (note: there is no
length assert in this function; `zip` silently truncates to the shorter
corpus). -/
noncomputable def extremaScores (hypothesis_corpus reference_corpus : List (List Token))
    (emb : Embeddings) : Except PyErr (List ℝ) :=
  extremaLoop emb (hypothesis_corpus.zip reference_corpus) []

/-- `extrema_corpus_level`: loop over the zipped corpora and return
`_compute_statistics(scores)`; unlike `average_corpus_level` there is
no length assertion. -/
noncomputable def extrema_corpus_level (hypothesis_corpus reference_corpus : List (List Token))
    (emb : Embeddings) : Except PyErr (ℝ × ℝ × ℝ) :=
  (extremaScores hypothesis_corpus reference_corpus emb).map computeStatistics

/-- `greedy_match_sentence_level`: the body is `pass`, so the function
returns Python's `None` (no score) for every input. -/
noncomputable def greedy_match_sentence_level (hypothesis_sentence reference_sentence : List Token)
    (emb : Embeddings) : Option ℝ :=
  none

/-- Lookup table of the concrete 1-dimensional test embedding: token
`"a"` has the embedding `[1]`, every other token is OOV. -/
noncomputable def lookupA (t : Token) : Option Vec :=
  if t = "a" then some [1] else none

/-- The concrete test embedding built from `lookupA`. -/
noncomputable def embA : Embeddings :=
  ⟨1, lookupA, by
    intro t v h
    unfold lookupA at h
    by_cases ht : t = "a"
    · rw [if_pos ht] at h
      cases h
      rfl
    · rw [if_neg ht] at h
      cases h⟩

/-! ### Evaluation lemmas for the concrete test embedding -/

lemma EPSILON_pos : 0 < EPSILON := by norm_num [EPSILON]

lemma dotR_single (x y : ℝ) : dotR [x] [y] = x * y := by
  simp [dotR]

lemma normR_nil : normR [] = 0 := by
  simp [normR, dotR]

lemma normR_single (x : ℝ) : normR [x] = |x| := by
  rw [normR, dotR_single, Real.sqrt_mul_self_eq_abs]

lemma normR_one : normR [(1 : ℝ)] = 1 := by
  rw [normR_single, abs_one]

lemma normR_one_not_lt : ¬ normR [(1 : ℝ)] < EPSILON := by
  rw [normR_one]
  norm_num [EPSILON]

lemma normR_zero_lt : normR [(0 : ℝ)] < EPSILON := by
  rw [normR_single, abs_zero]
  exact EPSILON_pos

lemma embA_lookup_a : embA.lookup "a" = some [1] := by
  show lookupA "a" = some [1]
  rw [lookupA, if_pos rfl]

lemma embA_lookup_x : embA.lookup "x" = none := by
  show lookupA "x" = none
  rw [lookupA, if_neg (by decide)]

lemma embA_size : embA.vectorSize = 1 := rfl

lemma filterMap_a : List.filterMap embA.lookup ["a"] = [[1]] := by
  simp [List.filterMap_cons, embA_lookup_a]

lemma filterMap_x : List.filterMap embA.lookup ["x"] = [] := by
  simp [List.filterMap_cons, embA_lookup_x]

lemma esum_a : embeddingSum ["a"] embA = [1] := by
  have hfold : (List.filterMap embA.lookup ["a"]).foldl vecAdd (zeroVec embA.vectorSize)
      = [1] := by
    rw [filterMap_a, embA_size]
    simp [zeroVec, vecAdd]
  rw [embeddingSum, hfold, if_neg normR_one_not_lt]

lemma esum_x : embeddingSum ["x"] embA = [0] := by
  have hfold : (List.filterMap embA.lookup ["x"]).foldl vecAdd (zeroVec embA.vectorSize)
      = [0] := by
    rw [filterMap_x, embA_size]
    simp [zeroVec]
  rw [embeddingSum, hfold, if_pos normR_zero_lt, embA_size]
  simp [zeroVec]

lemma act_aa : avgPairAction ["a"] ["a"] embA = AvgAction.score [1] [1] := by
  rw [avgPairAction, esum_a, if_neg normR_one_not_lt, if_neg normR_one_not_lt]

lemma act_xa : avgPairAction ["x"] ["a"] embA = AvgAction.skip := by
  rw [avgPairAction, esum_x, if_pos normR_zero_lt]

lemma act_ax : avgPairAction ["a"] ["x"] embA = AvgAction.zero := by
  rw [avgPairAction, esum_a, esum_x, if_neg normR_one_not_lt, if_pos normR_zero_lt]

lemma score_one : avgScoreValue [1] [1] = 1 := by
  have hmap : ([(1 : ℝ)]).map (fun x => x / normR [(1 : ℝ)]) = [1] := by
    rw [normR_one]
    simp
  rw [avgScoreValue, hmap, cosineSimilarity, dotR_single, normR_one]
  norm_num

lemma emap_a : mapToEmbeddings ["a"] embA = [[1]] := by
  rw [mapToEmbeddings]
  exact filterMap_a

lemma emap_x : mapToEmbeddings ["x"] embA = [] := by
  rw [mapToEmbeddings]
  exact filterMap_x

lemma eact_aa : extPairAction ["a"] ["a"] embA = ExtAction.raiseType := by
  rw [extPairAction, emap_a]
  simp only [List.flatten]
  rw [if_neg (by simpa using normR_one_not_lt), if_neg (by simpa using normR_one_not_lt)]

lemma eact_xa : extPairAction ["x"] ["a"] embA = ExtAction.skip := by
  rw [extPairAction, emap_x]
  simp only [List.flatten]
  rw [if_pos (by simpa [normR_nil] using EPSILON_pos)]

lemma eact_ax : extPairAction ["a"] ["x"] embA = ExtAction.zero := by
  rw [extPairAction, emap_a, emap_x]
  simp only [List.flatten]
  rw [if_neg (by simpa using normR_one_not_lt), if_pos (by simpa [normR_nil] using EPSILON_pos)]

lemma stats_nil : computeStatistics [] = (0, 0, 0) := by
  have hm : meanR [] = 0 := by simp [meanR]
  have hs : stdR [] = 0 := by simp [stdR]
  rw [computeStatistics, hm, hs]
  norm_num

lemma stats_single (x : ℝ) : computeStatistics [x] = (x, 0, 0) := by
  have hm : meanR [x] = x := by simp [meanR]
  have hs : stdR [x] = 0 := by
    rw [stdR, hm]
    simp
  rw [computeStatistics, hm, hs]
  norm_num

lemma avgScores_C2 : averageScores [["a"], ["x"]] [["a"], ["a"]] embA = [1] := by
  simp [averageScores, averageLoop, act_aa, act_xa, score_one]

lemma extremaLoop_ne_assert (emb : Embeddings) :
    ∀ (l : List (List Token × List Token)) (acc : List ℝ),
      extremaLoop emb l acc ≠ Except.error PyErr.assertionError := by
  intro l
  induction l with
  | nil =>
    intro acc h
    simp [extremaLoop] at h
  | cons p rest ih =>
    intro acc h
    rw [extremaLoop] at h
    cases hact : extPairAction p.1 p.2 emb <;> rw [hact] at h
    · exact ih acc h
    · exact ih (acc ++ [0]) h
    · injection h with h2
      exact PyErr.noConfusion h2

/-! ### Claim theorems -/

/-- C1: the claim says the corpus-level loops skip a pair when the
REFERENCE aggregate is near-zero and append the score 0 when only the
HYPOTHESIS aggregate is near-zero.  The code does the opposite (its
`X`/`Y` bindings are swapped relative to its own comments): with
`"a" ↦ [1]` and `"x"` OOV, the pair (hyp `["x"]`, ref `["a"]`) is
skipped (claim: score 0) and the pair (hyp `["a"]`, ref `["x"]`) gets
score 0 (claim: skipped), in both `average_corpus_level` and
`extrema_corpus_level`. -/
theorem C1_corpus_guard_sides_swapped :
    averageScores [["x"]] [["a"]] embA = [] ∧
    averageScores [["a"]] [["x"]] embA = [0] ∧
    extremaScores [["x"]] [["a"]] embA = Except.ok [] ∧
    extremaScores [["a"]] [["x"]] embA = Except.ok [0] := by
  refine ⟨?_, ?_, ?_, ?_⟩
  · simp [averageScores, averageLoop, act_xa]
  · simp [averageScores, averageLoop, act_ax]
  · simp [extremaScores, extremaLoop, eact_xa]
  · simp [extremaScores, extremaLoop, eact_ax]

/-- C2: the claim predicts score list `[1.0, 0]` and mean `0.5` for
hypothesis corpus `[["a"], ["x"]]` against reference corpus
`[["a"], ["a"]]` (`"x"` OOV).  The code instead SKIPS pair 1 (its skip
guard tests the hypothesis side), producing the score list `[1.0]` and
statistics `(1, 0, 0)`. -/
theorem C2_concrete_scenario_eval :
    averageScores [["a"], ["x"]] [["a"], ["a"]] embA = [1] ∧
    average_corpus_level [["a"], ["x"]] [["a"], ["a"]] embA = Except.ok (1, 0, 0) := by
  refine ⟨avgScores_C2, ?_⟩
  rw [average_corpus_level,
    if_pos (show ([["a"], ["x"]] : List (List Token)).length = [["a"], ["a"]].length from rfl),
    avgScores_C2, stats_single]

/-- C3 counterexample: `extrema_corpus_level` contains no length
assertion, so on corpora of unequal lengths (here 1 vs 0) it does not
fail: it silently truncates via `zip` and returns a result. -/
theorem C3_extrema_no_assert_cex :
    ([["a"]] : List (List Token)).length ≠ ([] : List (List Token)).length ∧
    (extrema_corpus_level [["a"]] [] embA).isOk = true := by
  refine ⟨by decide, ?_⟩
  rw [extrema_corpus_level, extremaScores]
  simp [extremaLoop, Except.map, Except.isOk, Except.toBool]

/-- C3 amended: `average_corpus_level` fails via its assertion on every
unequal-length corpus pair (no partial result), but
`extrema_corpus_level` performs no length check and never raises an
`AssertionError`. -/
theorem C3_only_average_asserts :
    (∀ (hyp ref : List (List Token)) (emb : Embeddings), hyp.length ≠ ref.length →
      average_corpus_level hyp ref emb = Except.error PyErr.assertionError) ∧
    (∀ (hyp ref : List (List Token)) (emb : Embeddings),
      extrema_corpus_level hyp ref emb ≠ Except.error PyErr.assertionError) := by
  constructor
  · intro hyp ref emb h
    rw [average_corpus_level, if_neg h]
  · intro hyp ref emb h
    rw [extrema_corpus_level] at h
    cases hs : extremaScores hyp ref emb with
    | ok s =>
      rw [hs] at h
      simp [Except.map] at h
    | error e =>
      rw [hs] at h
      have he : e = PyErr.assertionError := by
        simpa [Except.map] using h
      rw [he] at hs
      exact extremaLoop_ne_assert emb _ _ hs

/-- C3 witness: on the concrete unequal-length pair (0 vs 1 sentences)
`average_corpus_level` raises the assertion. -/
theorem C3_only_average_asserts_witness :
    average_corpus_level [] [["a"]] embA = Except.error PyErr.assertionError :=
  C3_only_average_asserts.1 [] [["a"]] embA (by decide)

/-- C4: the claim says that when every reference sentence is
OOV-only the score list is empty.  With hypothesis `[["a"]]` and
reference `[["x"]]` (`"x"` OOV) the code instead appends the score 0
(the zero-score guard tests the reference side), so the list is `[0]`,
not `[]`; the statistics of both `[0]` and the empty list are defined
values (`_compute_statistics` of an empty list divides by zero, which
is 0 in this model and a NaN-with-warning, not a crash, in numpy). -/
theorem C4_all_oov_references_eval :
    averageScores [["a"]] [["x"]] embA = [0] ∧
    ([(0 : ℝ)] ≠ ([] : List ℝ)) ∧
    average_corpus_level [["a"]] [["x"]] embA = Except.ok (0, 0, 0) ∧
    computeStatistics [] = (0, 0, 0) := by
  have h0 : averageScores [["a"]] [["x"]] embA = [0] := by
    simp [averageScores, averageLoop, act_ax]
  refine ⟨h0, by simp, ?_, stats_nil⟩
  rw [average_corpus_level,
    if_pos (show ([["a"]] : List (List Token)).length = [["x"]].length from rfl),
    h0, stats_single]

/-- C7: `greedy_match_sentence_level` has body `pass`: for every input
it performs no computation and returns Python's `None` (no score),
i.e. the unimplemented placeholder. -/
theorem C7_greedy_match_unimplemented :
    ∀ (hyp ref : List Token) (emb : Embeddings),
      greedy_match_sentence_level hyp ref emb = none :=
  fun _ _ _ => rfl

/-- C6: for equal-length corpora `average_corpus_level` returns the
3-tuple `(mean, ci, std)` with `ci = 1.96 * std / (count of scores
actually appended)` and `ci ≥ 0`, `std ≥ 0`.  `extrema_corpus_level`
does NOT satisfy the claim: on the valid equal-length pair
`[["a"]]`/`[["a"]]` it raises a `TypeError` (its value branch applies
`_get_extrema` to the raw token strings) instead of returning a
3-tuple. -/
theorem C6_summary_statistics_shape :
    (∀ (hyp ref : List (List Token)) (emb : Embeddings), hyp.length = ref.length →
      average_corpus_level hyp ref emb =
        Except.ok (meanR (averageScores hyp ref emb),
          1.96 * stdR (averageScores hyp ref emb) / (averageScores hyp ref emb).length,
          stdR (averageScores hyp ref emb)) ∧
      0 ≤ 1.96 * stdR (averageScores hyp ref emb) / (averageScores hyp ref emb).length ∧
      0 ≤ stdR (averageScores hyp ref emb)) ∧
    extrema_corpus_level [["a"]] [["a"]] embA = Except.error PyErr.typeError := by
  constructor
  · intro hyp ref emb h
    refine ⟨?_, ?_, ?_⟩
    · rw [average_corpus_level, if_pos h]
      rfl
    · exact div_nonneg (mul_nonneg (by norm_num) (Real.sqrt_nonneg _)) (Nat.cast_nonneg _)
    · exact Real.sqrt_nonneg _
  · rw [extrema_corpus_level, extremaScores]
    simp [extremaLoop, eact_aa, Except.map]

/-- C6 witness: the theorem applied to the concrete equal-length pair
`[["a"]]` vs `[["a"]]`. -/
theorem C6_summary_statistics_shape_witness :
    average_corpus_level [["a"]] [["a"]] embA =
      Except.ok (meanR (averageScores [["a"]] [["a"]] embA),
        1.96 * stdR (averageScores [["a"]] [["a"]] embA) /
          (averageScores [["a"]] [["a"]] embA).length,
        stdR (averageScores [["a"]] [["a"]] embA)) ∧
    0 ≤ 1.96 * stdR (averageScores [["a"]] [["a"]] embA) /
        (averageScores [["a"]] [["a"]] embA).length ∧
    0 ≤ stdR (averageScores [["a"]] [["a"]] embA) :=
  C6_summary_statistics_shape.1 [["a"]] [["a"]] embA rfl

/-- C8: the normalizations and the cosine division in the score branch
of `average_corpus_level` run only when both zero-magnitude guards have
passed, i.e. both embedding sums have norm at least `_EPSILON`; in
`extrema_corpus_level` the value branch (which raises before dividing)
is likewise reached only with both flattened filtered lists of norm at
least `_EPSILON`. -/
theorem C8_guards_precede_division :
    (∀ (hyp ref : List Token) (emb : Embeddings) (X Y : Vec),
      avgPairAction hyp ref emb = AvgAction.score X Y →
        EPSILON ≤ normR X ∧ EPSILON ≤ normR Y) ∧
    (∀ (hyp ref : List Token) (emb : Embeddings),
      extPairAction hyp ref emb = ExtAction.raiseType →
        EPSILON ≤ normR (mapToEmbeddings hyp emb).flatten ∧
        EPSILON ≤ normR (mapToEmbeddings ref emb).flatten) := by
  constructor
  · intro hyp ref emb X Y h
    rw [avgPairAction] at h
    by_cases h1 : normR (embeddingSum hyp emb) < EPSILON
    · rw [if_pos h1] at h
      exact AvgAction.noConfusion h
    · rw [if_neg h1] at h
      by_cases h2 : normR (embeddingSum ref emb) < EPSILON
      · rw [if_pos h2] at h
        exact AvgAction.noConfusion h
      · rw [if_neg h2] at h
        injection h with hX hY
        rw [← hX, ← hY]
        exact ⟨le_of_not_lt h1, le_of_not_lt h2⟩
  · intro hyp ref emb h
    rw [extPairAction] at h
    by_cases h1 : normR (mapToEmbeddings hyp emb).flatten < EPSILON
    · rw [if_pos h1] at h
      exact ExtAction.noConfusion h
    · rw [if_neg h1] at h
      by_cases h2 : normR (mapToEmbeddings ref emb).flatten < EPSILON
      · rw [if_pos h2] at h
        exact ExtAction.noConfusion h
      · exact ⟨le_of_not_lt h1, le_of_not_lt h2⟩

/-- C8 witness: the concrete pair `["a"]`/`["a"]` reaches the score
branch with both sums `[1]`, whose norm 1 is at least `_EPSILON`. -/
theorem C8_guards_precede_division_witness :
    EPSILON ≤ normR [(1 : ℝ)] ∧ EPSILON ≤ normR [(1 : ℝ)] :=
  C8_guards_precede_division.1 ["a"] ["a"] embA [1] [1] act_aa

/-- C10: whenever an `extrema_corpus_level` iteration passes both
zero-magnitude guards (reaching the value branch), both filtered
in-vocabulary vector lists are nonempty — the guard does divert
empty-filtered pairs.  However the value branch then applies
`_get_extrema` to the raw token lists, not to those vector lists,
raising a `TypeError` (shown on the concrete all-in-vocabulary pair). -/
theorem C10_extrema_guard_nonempty :
    (∀ (hyp ref : List Token) (emb : Embeddings),
      extPairAction hyp ref emb = ExtAction.raiseType →
        mapToEmbeddings hyp emb ≠ [] ∧ mapToEmbeddings ref emb ≠ []) ∧
    extPairAction ["a"] ["a"] embA = ExtAction.raiseType ∧
    extremaScores [["a"]] [["a"]] embA = Except.error PyErr.typeError := by
  refine ⟨?_, eact_aa, ?_⟩
  · intro hyp ref emb h
    rw [extPairAction] at h
    by_cases h1 : normR (mapToEmbeddings hyp emb).flatten < EPSILON
    · rw [if_pos h1] at h
      exact ExtAction.noConfusion h
    · rw [if_neg h1] at h
      by_cases h2 : normR (mapToEmbeddings ref emb).flatten < EPSILON
      · rw [if_pos h2] at h
        exact ExtAction.noConfusion h
      · constructor
        · intro hnil
          rw [hnil] at h1
          exact h1 (by simpa [normR_nil] using EPSILON_pos)
        · intro hnil
          rw [hnil] at h2
          exact h2 (by simpa [normR_nil] using EPSILON_pos)
  · rw [extremaScores]
    simp [extremaLoop, eact_aa]

/-- C10 witness: the theorem applied to the concrete pair that reaches
the value branch. -/
theorem C10_extrema_guard_nonempty_witness :
    mapToEmbeddings ["a"] embA ≠ [] ∧ mapToEmbeddings ["a"] embA ≠ [] :=
  C10_extrema_guard_nonempty.1 ["a"] ["a"] embA C10_extrema_guard_nonempty.2.1

/-! ### Permutation invariance of the aggregations -/

lemma foldl_right_comm_perm {α β : Type} {f : β → α → β}
    (hrc : ∀ b a c, f (f b a) c = f (f b c) a) :
    ∀ {l l2 : List α}, l.Perm l2 → ∀ b, l.foldl f b = l2.foldl f b := by
  intro l l2 p
  induction p with
  | nil =>
    intro b
    rfl
  | cons x p ih =>
    intro b
    simp only [List.foldl_cons]
    exact ih _
  | swap x y l' =>
    intro b
    simp only [List.foldl_cons]
    rw [hrc]
  | trans p q ih1 ih2 =>
    intro b
    rw [ih1 b, ih2 b]

lemma vecAdd_right_comm (b a c : Vec) : vecAdd (vecAdd b a) c = vecAdd (vecAdd b c) a := by
  induction b generalizing a c with
  | nil => simp [vecAdd]
  | cons x b ih =>
    cases a with
    | nil => simp [vecAdd]
    | cons y a =>
      cases c with
      | nil => simp [vecAdd]
      | cons z c =>
        simp only [vecAdd, List.zipWith_cons_cons]
        refine congrArg₂ List.cons (by ring) ?_
        exact ih a c

lemma embeddingSum_perm {s s2 : List Token} (emb : Embeddings) (p : s.Perm s2) :
    embeddingSum s emb = embeddingSum s2 emb := by
  rw [embeddingSum, embeddingSum,
    foldl_right_comm_perm vecAdd_right_comm (p.filterMap emb.lookup) (zeroVec emb.vectorSize)]

lemma getAverage_perm {s s2 : List Token} (emb : Embeddings) (p : s.Perm s2) :
    getAverage s emb = getAverage s2 emb := by
  rw [getAverage, getAverage, embeddingSum_perm emb p]

lemma zipWith_comm_of_comm {α : Type} {f : α → α → α} (hc : ∀ x y, f x y = f y x) :
    ∀ (a b : List α), List.zipWith f a b = List.zipWith f b a := by
  intro a
  induction a with
  | nil =>
    intro b
    cases b <;> simp
  | cons x a ih =>
    intro b
    cases b with
    | nil => simp
    | cons y b =>
      simp only [List.zipWith_cons_cons]
      rw [hc, ih]

lemma zipWith_assoc_of_assoc {α : Type} {f : α → α → α}
    (ha : ∀ x y z, f (f x y) z = f x (f y z)) :
    ∀ (a b c : List α),
      List.zipWith f (List.zipWith f a b) c = List.zipWith f a (List.zipWith f b c) := by
  intro a
  induction a with
  | nil =>
    intro b c
    simp
  | cons x a ih =>
    intro b c
    cases b with
    | nil => simp
    | cons y b =>
      cases c with
      | nil => simp
      | cons z c =>
        simp only [List.zipWith_cons_cons]
        rw [ha, ih]

/-- Proof device for fold1-style reductions: `colReduce` as a `foldl`
over `Option`, so that permutation invariance follows from right
commutativity. -/
def optStep {α : Type} (f : α → α → α) (acc : Option (List α)) (v : List α) : Option (List α) :=
  match acc with
  | none => some v
  | some w => some (List.zipWith f w v)

lemma foldl_optStep_some {α : Type} (f : α → α → α) :
    ∀ (vs : List (List α)) (w : List α),
      vs.foldl (optStep f) (some w) = some (vs.foldl (List.zipWith f) w) := by
  intro vs
  induction vs with
  | nil =>
    intro w
    rfl
  | cons v vs ih =>
    intro w
    simp only [List.foldl_cons]
    exact ih _

lemma colReduce_eq_optFold {α : Type} (f : α → α → α) (vs : List (List α)) :
    colReduce f vs = (vs.foldl (optStep f) none).getD [] := by
  cases vs with
  | nil => rfl
  | cons v vs =>
    rw [colReduce, List.foldl_cons,
      show optStep f none v = some v from rfl, foldl_optStep_some]
    rfl

lemma optStep_right_comm {α : Type} {f : α → α → α}
    (hc : ∀ x y, f x y = f y x) (ha : ∀ x y z, f (f x y) z = f x (f y z)) :
    ∀ (acc : Option (List α)) (a b : List α),
      optStep f (optStep f acc a) b = optStep f (optStep f acc b) a := by
  intro acc a b
  cases acc with
  | none =>
    show some (List.zipWith f a b) = some (List.zipWith f b a)
    rw [zipWith_comm_of_comm hc]
  | some w =>
    show some (List.zipWith f (List.zipWith f w a) b)
      = some (List.zipWith f (List.zipWith f w b) a)
    rw [zipWith_assoc_of_assoc ha, zipWith_assoc_of_assoc ha, zipWith_comm_of_comm hc a b]

lemma colReduce_perm {α : Type} {f : α → α → α}
    (hc : ∀ x y, f x y = f y x) (ha : ∀ x y z, f (f x y) z = f x (f y z))
    {l l2 : List (List α)} (p : l.Perm l2) : colReduce f l = colReduce f l2 := by
  rw [colReduce_eq_optFold, colReduce_eq_optFold,
    foldl_right_comm_perm (optStep_right_comm hc ha) p none]

lemma getExtrema_perm {α : Type} [LinearOrderedField α] {l l2 : List (List α)}
    (p : l.Perm l2) : getExtrema l = getExtrema l2 := by
  rw [getExtrema, getExtrema,
    colReduce_perm (fun x y => min_comm x y) (fun x y z => min_assoc x y z) p,
    colReduce_perm (fun x y => max_comm x y) (fun x y z => max_assoc x y z) p]

lemma mapToEmbeddings_perm {s s2 : List Token} (emb : Embeddings) (p : s.Perm s2) :
    (mapToEmbeddings s emb).Perm (mapToEmbeddings s2 emb) :=
  p.filterMap emb.lookup

/-- C9: permuting the tokens inside the hypothesis sentence and/or the
reference sentence leaves `average_sentence_level` and
`extrema_sentence_level` unchanged: the sum-based and extrema
aggregations are order-invariant. -/
theorem C9_sentence_level_order_invariant :
    ∀ (hyp hyp2 ref ref2 : List Token) (emb : Embeddings),
      hyp.Perm hyp2 → ref.Perm ref2 →
      average_sentence_level hyp ref emb = average_sentence_level hyp2 ref2 emb ∧
      extrema_sentence_level hyp ref emb = extrema_sentence_level hyp2 ref2 emb := by
  intro hyp hyp2 ref ref2 emb ph pr
  constructor
  · rw [average_sentence_level, average_sentence_level,
      getAverage_perm emb ph, getAverage_perm emb pr]
  · rw [extrema_sentence_level, extrema_sentence_level,
      getExtrema_perm (mapToEmbeddings_perm emb ph),
      getExtrema_perm (mapToEmbeddings_perm emb pr)]

/-- C9 witness: a concrete transposition of a two-token hypothesis
sentence. -/
theorem C9_sentence_level_order_invariant_witness :
    average_sentence_level ["a", "x"] ["a"] embA = average_sentence_level ["x", "a"] ["a"] embA ∧
    extrema_sentence_level ["a", "x"] ["a"] embA = extrema_sentence_level ["x", "a"] ["a"] embA :=
  C9_sentence_level_order_invariant ["a", "x"] ["x", "a"] ["a"] ["a"] embA
    (by decide) (List.Perm.refl _)

/-! ### Per-dimension characterization of the extrema aggregation -/

lemma getD_zipWith_of_lt {α β γ : Type} (f : α → β → γ) (a : List α) (b : List β)
    (da : α) (db : β) (dc : γ) (i : ℕ) (ha : i < a.length) (hb : i < b.length) :
    (List.zipWith f a b).getD i dc = f (a.getD i da) (b.getD i db) := by
  have hz : i < (List.zipWith f a b).length := by
    rw [List.length_zipWith]
    exact lt_min ha hb
  rw [List.getD_eq_getElem _ _ hz, List.getD_eq_getElem _ _ ha, List.getD_eq_getElem _ _ hb,
    List.getElem_zipWith]

lemma foldl_zipWith_length {α : Type} (f : α → α → α) :
    ∀ (vs : List (List α)) (v : List α), (∀ u ∈ vs, u.length = v.length) →
      (vs.foldl (List.zipWith f) v).length = v.length := by
  intro vs
  induction vs with
  | nil =>
    intro v _
    rfl
  | cons u vs ih =>
    intro v hl
    have hu : u.length = v.length := hl u (List.mem_cons_self u vs)
    have hzl : (List.zipWith f v u).length = v.length := by
      simp [List.length_zipWith, hu]
    simp only [List.foldl_cons]
    rw [ih (List.zipWith f v u) (fun w hw => by rw [hzl]; exact hl w (List.mem_cons_of_mem u hw)),
      hzl]

lemma foldl_zipWith_getD {α : Type} (f : α → α → α) (d : α) :
    ∀ (vs : List (List α)) (v : List α) (i : ℕ), i < v.length →
      (∀ u ∈ vs, u.length = v.length) →
      (vs.foldl (List.zipWith f) v).getD i d
        = vs.foldl (fun a u => f a (u.getD i d)) (v.getD i d) := by
  intro vs
  induction vs with
  | nil =>
    intro v i _ _
    rfl
  | cons u vs ih =>
    intro v i hi hl
    have hu : u.length = v.length := hl u (List.mem_cons_self u vs)
    have hzl : (List.zipWith f v u).length = v.length := by
      simp [List.length_zipWith, hu]
    simp only [List.foldl_cons]
    rw [ih (List.zipWith f v u) i (by rw [hzl]; exact hi)
      (fun w hw => by rw [hzl]; exact hl w (List.mem_cons_of_mem u hw)),
      getD_zipWith_of_lt f v u d d d i hi (by rw [hu]; exact hi)]

lemma foldl_min_le {α : Type} [LinearOrder α] :
    ∀ (l : List α) (a : α), l.foldl min a ≤ a := by
  intro l
  induction l with
  | nil =>
    intro a
    exact le_refl a
  | cons x l ih =>
    intro a
    exact le_trans (ih (min a x)) (min_le_left a x)

lemma le_foldl_max {α : Type} [LinearOrder α] :
    ∀ (l : List α) (a : α), a ≤ l.foldl max a := by
  intro l
  induction l with
  | nil =>
    intro a
    exact le_refl a
  | cons x l ih =>
    intro a
    exact le_trans (le_max_left a x) (ih (max a x))

/-- C5 counterexample to the tie policy as stated: on the tied column
`{-3, 3}` (where `|min| = 3 = max`) `_get_extrema` returns the MAXIMUM
`3`, not the minimum `-3` the claim prefers. -/
theorem C5_tie_returns_max_cex :
    getExtrema [[(-3 : ℚ)], [3]] = [3] ∧ ([(3 : ℚ)] ≠ [-3]) := by
  constructor
  · decide
  · decide

/-- C5 amended: per dimension `_get_extrema` picks either the column
minimum or the column maximum, always the one of larger absolute
magnitude, and at a magnitude tie it returns the column MAXIMUM (the
source policy `min_v if np.abs(min_v) > max_v else max_v`); on the
concrete vectors `[[3,-5],[2,1]]` the result is `[3,-5]`. -/
theorem C5_extrema_per_dimension :
    (∀ (α : Type) [inst : LinearOrderedField α] (vs : List (List α)) (D i : ℕ),
      vs ≠ [] → (∀ v ∈ vs, v.length = D) → i < D →
      ∃ mn mx, (vs.map (fun v => v.getD i 0)).min? = some mn ∧
        (vs.map (fun v => v.getD i 0)).max? = some mx ∧
        ((getExtrema vs).getD i 0 = mn ∨ (getExtrema vs).getD i 0 = mx) ∧
        |(getExtrema vs).getD i 0| = max |mn| |mx| ∧
        (|mn| = |mx| → (getExtrema vs).getD i 0 = mx)) ∧
    getExtrema [[(3 : ℚ), -5], [2, 1]] = [3, -5] := by
  constructor
  · intro α inst vs D i hne hlen hi
    obtain ⟨v, rest, rfl⟩ : ∃ v rest, vs = v :: rest := by
      cases vs with
      | nil => exact absurd rfl hne
      | cons v rest => exact ⟨v, rest, rfl⟩
    have hv : v.length = D := hlen v (List.mem_cons_self v rest)
    have hiv : i < v.length := by rw [hv]; exact hi
    have hrest : ∀ u ∈ rest, u.length = v.length := by
      intro u hu
      rw [hv]
      exact hlen u (List.mem_cons_of_mem v hu)
    set g := fun u : List α => u.getD i 0 with hg
    set mn := rest.foldl (fun a u => min a (g u)) (g v) with hmn
    set mx := rest.foldl (fun a u => max a (g u)) (g v) with hmx
    have hmin : ((v :: rest).map g).min? = some mn := by
      rw [List.map_cons,
        show (g v :: rest.map g).min? = some ((rest.map g).foldl min (g v)) from rfl,
        List.foldl_map]
    have hmax : ((v :: rest).map g).max? = some mx := by
      rw [List.map_cons,
        show (g v :: rest.map g).max? = some ((rest.map g).foldl max (g v)) from rfl,
        List.foldl_map]
    have hminD : (colReduce (fun x y => min x y) (v :: rest)).getD i 0 = mn := by
      rw [colReduce, foldl_zipWith_getD _ _ rest v i hiv hrest]
    have hmaxD : (colReduce (fun x y => max x y) (v :: rest)).getD i 0 = mx := by
      rw [colReduce, foldl_zipWith_getD _ _ rest v i hiv hrest]
    have hminLen : (colReduce (fun x y => min x y) (v :: rest)).length = v.length := by
      rw [colReduce]
      exact foldl_zipWith_length _ rest v hrest
    have hmaxLen : (colReduce (fun x y => max x y) (v :: rest)).length = v.length := by
      rw [colReduce]
      exact foldl_zipWith_length _ rest v hrest
    have hval : (getExtrema (v :: rest)).getD i 0 = (if mx < |mn| then mn else mx) := by
      rw [getExtrema,
        getD_zipWith_of_lt _ _ _ 0 0 0 i (by rw [hminLen]; exact hiv) (by rw [hmaxLen]; exact hiv),
        hminD, hmaxD]
    have hmnmx : mn ≤ mx := by
      have h1 : mn ≤ g v := by
        rw [hmn, ← List.foldl_map g min rest (g v)]
        exact foldl_min_le (rest.map g) (g v)
      have h2 : g v ≤ mx := by
        rw [hmx, ← List.foldl_map g max rest (g v)]
        exact le_foldl_max (rest.map g) (g v)
      exact le_trans h1 h2
    refine ⟨mn, mx, hmin, hmax, ?_, ?_, ?_⟩
    · rw [hval]
      by_cases hc : mx < |mn|
      · rw [if_pos hc]
        exact Or.inl rfl
      · rw [if_neg hc]
        exact Or.inr rfl
    · rw [hval]
      by_cases hc : mx < |mn|
      · rw [if_pos hc]
        have habs : |mx| ≤ |mn| := by
          rcases le_or_lt 0 mx with h0 | h0
          · rw [abs_of_nonneg h0]
            exact le_of_lt hc
          · rw [abs_of_neg h0, abs_of_neg (lt_of_le_of_lt hmnmx h0)]
            exact neg_le_neg hmnmx
        rw [max_eq_left habs]
      · rw [if_neg hc]
        have habs : |mn| ≤ mx := le_of_not_lt hc
        have h0 : (0 : α) ≤ mx := le_trans (abs_nonneg mn) habs
        rw [abs_of_nonneg h0]
        exact (max_eq_right habs).symm ▸ rfl
    · intro htie
      rw [hval]
      by_cases hc : mx < |mn|
      · rw [if_pos hc]
        have h0 : mx < 0 := by
          by_contra h0
          push_neg at h0
          rw [htie, abs_of_nonneg h0] at hc
          exact lt_irrefl _ hc
        have hmn0 : mn < 0 := lt_of_le_of_lt hmnmx h0
        have : -mn = -mx := by
          rw [← abs_of_neg hmn0, ← abs_of_neg h0, htie]
        exact neg_injective this
      · rw [if_neg hc]
  · decide

/-- C5 witness: the amended per-dimension characterization applied to
dimension 1 of the concrete vectors `[[3,-5],[2,1]]`. -/
theorem C5_extrema_per_dimension_witness :
    ∃ mn mx, ([[(3 : ℚ), -5], [2, 1]].map (fun v => v.getD 1 0)).min? = some mn ∧
      ([[(3 : ℚ), -5], [2, 1]].map (fun v => v.getD 1 0)).max? = some mx ∧
      ((getExtrema [[(3 : ℚ), -5], [2, 1]]).getD 1 0 = mn ∨
        (getExtrema [[(3 : ℚ), -5], [2, 1]]).getD 1 0 = mx) ∧
      |(getExtrema [[(3 : ℚ), -5], [2, 1]]).getD 1 0| = max |mn| |mx| ∧
      (|mn| = |mx| → (getExtrema [[(3 : ℚ), -5], [2, 1]]).getD 1 0 = mx) :=
  C5_extrema_per_dimension.1 ℚ [[(3 : ℚ), -5], [2, 1]] 2 1 (by decide) (by decide) (by decide)

end EmbeddingBased
